import Mathlib

/-
Shallow embedding of the path-sanitizer package (sanitize.js).

The source is a single function `sanitize(pathToSanitize, options)` that
runs a fixed pipeline of textual transformations:
  decode rules -> leading-separator normalization -> parent-directory
  removal -> separator collapsing -> path.normalize -> trailing/leading
  trim loops -> path.join('', s) -> disallowed-character removal.
Node's `path` module on a POSIX host is modelled by `posixNormalize` and
`posixJoin` below, following Node's posix `normalizeString` segment
algorithm. JavaScript regex global replacement with literal patterns is
modelled by `replaceAll` (left-to-right, non-overlapping); the two
character-class regexes of the source are modelled by the dedicated
scanners `parentDirReplace` and `collapseSeps`.
-/

namespace PathSanitizer

/-- A path-separator character, the character class [/\\] of the source. -/
def isSep (c : Char) : Bool := c = '/' || c = '\\'

/-- If `pat` is a leading sequence of `l`, return the remainder of `l` after it. -/
def dropStart : List Char → List Char → Option (List Char)
  | [], l => some l
  | _ :: _, [] => none
  | p :: ps, c :: cs => if p = c then dropStart ps cs else none

/-- Left-to-right non-overlapping replacement of a literal pattern, the
behaviour of JavaScript `String.replace` with a global literal-text regex.
The fuel argument bounds the scan; it is instantiated with the input
length, which suffices for every non-empty pattern. -/
def repAux (pat rep : List Char) : Nat → List Char → List Char
  | 0, l => l
  | _ + 1, [] => []
  | fuel + 1, c :: cs =>
    match dropStart pat (c :: cs) with
    | some rest => rep ++ repAux pat rep fuel rest
    | none => c :: repAux pat rep fuel cs

/-- Replace every occurrence of the literal pattern `pat` in `s` by `rep`. -/
def replaceAll (s pat rep : String) : String :=
  String.mk (repAux pat.data rep.data s.data.length s.data)

/-- The default decode rules of DEFAULT_OPTIONS: the three regexes are the
literal texts %2e, %2f and %5c, replaced globally by '.', '/' and '\\'. -/
def defaultDecode : List (String × String) :=
  [("%2e", "."), ("%2f", "/"), ("%5c", "\\")]

/-- The decode pass: `options.decode.forEach(d => s = s.replace(d.regex, d.replacement))`. -/
def applyDecode (rules : List (String × String)) (s : String) : String :=
  rules.foldl (fun acc r => replaceAll acc r.1 r.2) s

/-- The step `s.replace(/^[\/\\]?/, '/')`: an optional leading separator is
replaced by '/', so the result always begins with exactly one new '/'. -/
def prefixSlash (s : String) : String :=
  match s.data with
  | [] => "/"
  | c :: cs => if isSep c then String.mk ('/' :: cs) else String.mk ('/' :: c :: cs)

/-- Global replacement of the default parentDirectoryRegEx [/\\]\.\.[/\\]
by '/': a separator, two dots and a separator are consumed together (the
regex engine resumes after the whole match, so the trailing separator is
not available to the next match) and replaced by a single '/'. -/
def pdrAux : Nat → List Char → List Char
  | 0, l => l
  | _ + 1, [] => []
  | fuel + 1, a :: '.' :: '.' :: b :: rest2 =>
    if isSep a && isSep b then '/' :: pdrAux fuel rest2
    else a :: pdrAux fuel ('.' :: '.' :: b :: rest2)
  | fuel + 1, a :: rest => a :: pdrAux fuel rest

/-- String wrapper for the parent-directory removal pass; the fuel is the
input length, which bounds the number of scan positions. -/
def parentDirReplace (s : String) : String :=
  String.mk (pdrAux s.data.length s.data)

/-- Global replacement of runs of separators, `s.replace(/[\/\\]+/g, '/')`.
The boolean records whether the previous character was part of a run. -/
def collapseAux : Bool → List Char → List Char
  | _, [] => []
  | prev, c :: cs =>
    if isSep c then
      if prev then collapseAux true cs else '/' :: collapseAux true cs
    else c :: collapseAux false cs

/-- String wrapper for the separator-collapsing pass. -/
def collapseSeps (s : String) : String := String.mk (collapseAux false s.data)

/-- The characters matched by the default notAllowedRegEx
:|\$|!|'|"|@|\+|`|\||= (colon, dollar, bang, apostrophe, double quote,
at, plus, backtick, pipe, equals). -/
def notAllowedChars : List Char :=
  [':', '$', '!', Char.ofNat 39, Char.ofNat 34, '@', '+', Char.ofNat 96, '|', '=']

/-- Global removal of the disallowed characters (replacement by the empty
string); since every alternative of the regex is a single character this
is exactly a character filter. -/
def notAllowedReplace (s : String) : String :=
  String.mk (s.data.filter (fun c => !(notAllowedChars.contains c)))

/-- Split on '/' keeping empty segments, as Node's normalizeString scans
between forward slashes (posix: backslash is an ordinary character). -/
def splitSlashes : List Char → List (List Char)
  | [] => [[]]
  | c :: cs =>
    if c = '/' then [] :: splitSlashes cs
    else
      match splitSlashes cs with
      | seg :: rest => (c :: seg) :: rest
      | [] => [[c]]

/-- Segment resolution of Node's posix normalizeString: empty and '.'
segments are dropped; a '..' segment pops the previous real segment,
accumulates when nothing can be popped and above-root is allowed
(relative paths), and is discarded above the root of an absolute path. -/
def normSegs (allowAbove : Bool) : List (List Char) → List (List Char) → List (List Char)
  | acc, [] => acc
  | acc, seg :: rest =>
    if seg.isEmpty || seg == ['.'] then normSegs allowAbove acc rest
    else if seg == ['.', '.'] then
      if !acc.isEmpty && acc.getLast? != some ['.', '.'] then
        normSegs allowAbove acc.dropLast rest
      else if allowAbove then
        normSegs allowAbove (acc ++ [seg]) rest
      else
        normSegs allowAbove acc rest
    else
      normSegs allowAbove (acc ++ [seg]) rest

/-- Join segments with '/' between them. -/
def joinSegs : List (List Char) → List Char
  | [] => []
  | [seg] => seg
  | seg :: rest => seg ++ '/' :: joinSegs rest

/-- Node's `path.posix.normalize`: empty input gives '.', otherwise the
segments are resolved (above-root traversal allowed only for relative
paths), an empty relative result becomes '.', a trailing slash of the
input is preserved on a non-empty result, and a leading '/' is restored
for absolute input. -/
def posixNormalize (p : String) : String :=
  if p = "" then "."
  else
    let cs := p.data
    let isAbs := cs.head? == some '/'
    let trailing := cs.getLast? == some '/'
    let body := joinSegs (normSegs (!isAbs) [] (splitSlashes cs))
    let body1 := if body.isEmpty && !isAbs then ['.'] else body
    let body2 := if !body1.isEmpty && trailing then body1 ++ ['/'] else body1
    if isAbs then String.mk ('/' :: body2) else String.mk body2

/-- Node's `path.posix.join` restricted to two arguments: empty parts are
skipped, the remaining parts are joined with '/' and normalized; when
everything is empty the result is '.'. -/
def posixJoin (a b : String) : String :=
  if a = "" then
    if b = "" then "." else posixNormalize b
  else
    if b = "" then posixNormalize a else posixNormalize (a ++ "/" ++ b)

/-- Test of `s.endsWith('/') || s.endsWith('\\')` on the last character. -/
def endsWithSep (s : String) : Bool :=
  match s.data.getLast? with
  | some c => isSep c
  | none => false

/-- Test of `s.startsWith('/') || s.startsWith('\\')` on the first character. -/
def startsWithSep (s : String) : Bool :=
  match s.data.head? with
  | some c => isSep c
  | none => false

/-- One iteration of the trailing-trim while loop: drop the last character
when it is a separator (`s.slice(0, -1)`), otherwise leave `s` alone. -/
def trimEndStep (s : String) : String :=
  if endsWithSep s then String.mk s.data.dropLast else s

/-- One iteration of the leading-trim while loop: drop the first character
when it is a separator (`s.slice(1)`), otherwise leave `s` alone. -/
def trimStartStep (s : String) : String :=
  if startsWithSep s then String.mk s.data.tail else s

/-- The trailing-trim while loop; each effective iteration shortens the
string by one character, so `s.length` iterations reach the fixed point. -/
def trimTrailing (s : String) : String := trimEndStep^[s.length] s

/-- The leading-trim while loop, bounded the same way. -/
def trimLeading (s : String) : String := trimStartStep^[s.length] s

/-- The caller-facing options object: each recognized field is optional
(absent models a missing / undefined field in the JavaScript object).
The two regex-valued fields carry their global-replacement behaviour as a
string transformer. -/
structure SanitizeOptions where
  decode : Option (List (String × String))
  parentDirectoryRegEx : Option (String → String)
  notAllowedRegEx : Option (String → String)

/-- The module-level DEFAULT_OPTIONS constant, all three fields present. -/
def DEFAULT_OPTIONS : SanitizeOptions :=
  ⟨some defaultDecode, some parentDirReplace, some notAllowedReplace⟩

/-- A fully-populated configuration as used by the pipeline body. -/
structure MergedOptions where
  decode : List (String × String)
  parentDirectoryRegEx : String → String
  notAllowedRegEx : String → String

/-- The effective configuration after the field-defaulting at the top of
`sanitize`: each absent field falls back to the default. -/
def mergeOptions (o : SanitizeOptions) : MergedOptions :=
  ⟨o.decode.getD defaultDecode,
   o.parentDirectoryRegEx.getD parentDirReplace,
   o.notAllowedRegEx.getD notAllowedReplace⟩

/-- The state of the caller's options object after the call: the source
writes the default into each field that was absent (in-place mutation). -/
def fillDefaults (o : SanitizeOptions) : SanitizeOptions :=
  ⟨some (o.decode.getD defaultDecode),
   some (o.parentDirectoryRegEx.getD parentDirReplace),
   some (o.notAllowedRegEx.getD notAllowedReplace)⟩

/-- The pipeline up to but excluding the `path.join('', s)` step: decode,
leading-separator normalization, parent-directory removal, separator
collapsing, `path.normalize`, trailing trim, leading trim. -/
def preJoinWith (m : MergedOptions) (s : String) : String :=
  trimLeading (trimTrailing (posixNormalize
    (collapseSeps (m.parentDirectoryRegEx (prefixSlash (applyDecode m.decode s))))))

/-- The full pipeline: the pre-join stages, then `path.join('', s)`, then
the disallowed-character removal, returning the sanitized string. -/
def sanitizeWith (m : MergedOptions) (s : String) : String :=
  m.notAllowedRegEx (posixJoin "" (preJoinWith m s))

/-- `sanitize` under the default configuration. -/
def sanitize (s : String) : String := sanitizeWith (mergeOptions DEFAULT_OPTIONS) s

/-- The pre-join pipeline under the default configuration. -/
def preJoin (s : String) : String := preJoinWith (mergeOptions DEFAULT_OPTIONS) s

/-- `sanitize` with the caller's options object threaded as state: the
first component is the returned string, the second the caller's object
after the call (reflecting the in-place field defaulting of the source). -/
def sanitizeMut (p : String) (o : SanitizeOptions) : String × SanitizeOptions :=
  (sanitizeWith (mergeOptions o) p, fillDefaults o)

/-- The options object with no fields set, modelling `{}`. -/
def emptyOptions : SanitizeOptions := ⟨none, none, none⟩

/-- JavaScript values as they can reach the two parameters of `sanitize`. -/
inductive JSVal where
  | undef
  | nul
  | boolean (b : Bool)
  | number (n : Int)
  | str (s : String)
  | obj (o : SanitizeOptions)

/-- JavaScript truthiness of the modelled values. -/
def truthy : JSVal → Bool
  | .undef => false
  | .nul => false
  | .boolean b => b
  | .number n => n != 0
  | .str s => s != ""
  | .obj _ => true

/-- Whether `typeof v` is the string 'object' (true for null as well). -/
def typeofIsObject : JSVal → Bool
  | .nul => true
  | .obj _ => true
  | _ => false

/-- String coercion by a template literal, the source's stringification of
a non-string path input. -/
def jsToString : JSVal → String
  | .undef => "undefined"
  | .nul => "null"
  | .boolean true => "true"
  | .boolean false => "false"
  | .number n => toString n
  | .str s => s
  | .obj _ => "[object Object]"

/-- The options argument after the default parameter and the `if
(!options)` line: an omitted (undefined) or falsy argument becomes
DEFAULT_OPTIONS, anything else is kept. The result is always truthy, and
it has typeof 'object' exactly when it is an options object. -/
def resolveOptions (optArg : JSVal) : JSVal :=
  let o1 := match optArg with
    | JSVal.undef => JSVal.obj DEFAULT_OPTIONS
    | v => v
  if truthy o1 then o1 else JSVal.obj DEFAULT_OPTIONS

/-- The function `sanitize` with its JavaScript-level checks: after
defaulting, a value whose typeof is not 'object' raises the single error
of the source; otherwise the path argument is coerced to text and the
pipeline runs with the defaulted fields. (resolveOptions never returns
null, so matching on the object constructor covers the typeof test.) -/
def sanitizeJS (p optArg : JSVal) : Except String String :=
  match resolveOptions optArg with
  | JSVal.obj o => Except.ok (sanitizeWith (mergeOptions o) (jsToString p))
  | _ => Except.error "options must be an object"

/-- Whether `pat` occurs as a contiguous substring of the scanned list. -/
def hasSubL (pat : List Char) : List Char → Bool
  | [] => pat.isEmpty
  | c :: cs => (dropStart pat (c :: cs)).isSome || hasSubL pat cs

/-- Whether `pat` occurs as a contiguous substring of `s`. -/
def containsSub (s pat : String) : Bool := hasSubL pat.data s.data

/-- Lexical containment of a path in a base directory: the path equals the
base or extends it below a separator. -/
def lexicallyWithin (base p : String) : Bool :=
  p = base || List.isPrefixOf (base ++ "/").data p.data

theorem trimEndStep_shrinks (s : String) :
    trimEndStep s = s ∨ (trimEndStep s).length < s.length := by
  unfold trimEndStep
  by_cases h : endsWithSep s = true
  · right
    rw [if_pos h]
    have hne : s.data ≠ [] := by
      intro h0
      unfold endsWithSep at h
      rw [h0] at h
      simp at h
    have h1 : (String.mk s.data.dropLast).length = s.data.dropLast.length := rfl
    have h2 : s.length = s.data.length := rfl
    have h3 : s.data.dropLast.length = s.data.length - 1 := List.length_dropLast s.data
    have h4 : 0 < s.data.length := List.length_pos.mpr hne
    omega
  · left
    rw [if_neg h]

theorem trimStartStep_shrinks (s : String) :
    trimStartStep s = s ∨ (trimStartStep s).length < s.length := by
  unfold trimStartStep
  by_cases h : startsWithSep s = true
  · right
    rw [if_pos h]
    have hne : s.data ≠ [] := by
      intro h0
      unfold startsWithSep at h
      rw [h0] at h
      simp at h
    have h1 : (String.mk s.data.tail).length = s.data.tail.length := rfl
    have h2 : s.length = s.data.length := rfl
    have h3 : s.data.tail.length = s.data.length - 1 := List.length_tail s.data
    have h4 : 0 < s.data.length := List.length_pos.mpr hne
    omega
  · left
    rw [if_neg h]

theorem iterate_reaches_fix (f : String → String)
    (hf : ∀ s, f s = s ∨ (f s).length < s.length) :
    ∀ n s, s.length ≤ n → f (f^[n] s) = f^[n] s := by
  intro n
  induction n with
  | zero =>
    intro s hs
    rcases hf s with h | h
    · simpa using h
    · omega
  | succ n ih =>
    intro s hs
    rcases hf s with h | h
    · rw [Function.iterate_fixed h, h]
    · rw [Function.iterate_succ_apply]
      exact ih (f s) (by omega)

/-- C1: the claim that under the default configuration no output ever
contains a separator-flanked parent-directory marker fails on the code:
for the encoded input below the result is ../../../etc/passwd, which
contains the substring /../, because the disallowed-character removal
runs after the traversal passes and deletes the '=' characters that had
kept the dot pairs apart. -/
theorem c1_traversal_survives_default :
    sanitize "..=%5c..=%5c..=%5cetc/passwd" = "../../../etc/passwd"
    ∧ containsSub (sanitize "..=%5c..=%5c..=%5cetc/passwd") "/../" = true := by
  decide

/-- C2: the claim that sanitize maps the encoded-backslash payload to
etc/passwd fails on the code: the code returns the traversal chain
../../../etc/passwd instead (the repository's own vulnerability tests
require etc/passwd, so this is a defect of the code). -/
theorem c2_encoded_backslash_bypass :
    sanitize "..=%5c..=%5c..=%5cetc/passwd" ≠ "etc/passwd"
    ∧ sanitize "..=%5c..=%5c..=%5cetc/passwd" = "../../../etc/passwd" := by
  decide

/-- C3: the claim that lexically joining a trusted base with any sanitized
output stays inside the base fails on the code: joining /var/app-dir with
the sanitized encoded payload yields /etc/passwd, which is lexically
outside the base directory. -/
theorem c3_join_escapes_base :
    posixJoin "/var/app-dir" (sanitize "..=%5c..=%5c..=%5cetc/passwd") = "/etc/passwd"
    ∧ lexicallyWithin "/var/app-dir"
        (posixJoin "/var/app-dir" (sanitize "..=%5c..=%5c..=%5cetc/passwd")) = false := by
  decide

/-- C4: the claim that sanitize is idempotent fails on the code: the
output for the encoded payload still contains parent-directory markers,
so a second application changes it (the first application returns
../../../etc/passwd, the second etc/passwd). -/
theorem c4_not_idempotent :
    sanitize (sanitize "..=%5c..=%5c..=%5cetc/passwd")
      ≠ sanitize "..=%5c..=%5c..=%5cetc/passwd" := by
  decide

/-- C5: the claim that the output never starts nor ends with '/' fails on
the code: removing a disallowed character in the final step can expose a
separator at either end, as with the inputs =/abc and a/=. -/
theorem c5_separator_reexposed :
    sanitize "=/abc" = "/abc" ∧ sanitize "a/=" = "a/" := by
  decide

/-- C6: the call fails exactly when the options argument is supplied,
truthy (non-empty) and not of typeof 'object'; the only failure is the
single error of the source; and every path value, of any type, is coerced
to text and processed without failure under the default configuration. -/
theorem c6_error_handling (p optArg : JSVal) :
    (((sanitizeJS p optArg).isOk = false) ↔
      (truthy optArg = true ∧ typeofIsObject optArg = false))
    ∧ ((sanitizeJS p optArg = Except.error "options must be an object")
        ∨ (sanitizeJS p optArg).isOk = true)
    ∧ sanitizeJS p JSVal.undef = Except.ok (sanitize (jsToString p)) := by
  refine ⟨?_, ?_, rfl⟩ <;>
  · cases optArg with
    | undef => simp [sanitizeJS, resolveOptions, truthy, typeofIsObject, Except.isOk, Except.toBool]
    | nul => simp [sanitizeJS, resolveOptions, truthy, typeofIsObject, Except.isOk, Except.toBool]
    | boolean b =>
      cases b <;> simp [sanitizeJS, resolveOptions, truthy, typeofIsObject, Except.isOk, Except.toBool]
    | number n =>
      by_cases hn : n = 0 <;>
        simp [sanitizeJS, resolveOptions, truthy, typeofIsObject, Except.isOk, Except.toBool, hn]
    | str s =>
      by_cases hs : s = "" <;>
        simp [sanitizeJS, resolveOptions, truthy, typeofIsObject, Except.isOk, Except.toBool, hs]
    | obj o => simp [sanitizeJS, resolveOptions, truthy, typeofIsObject, Except.isOk, Except.toBool]

/-- C7: the claim that the caller-supplied configuration object is never
mutated fails on the code: calling sanitize with an options object whose
fields are absent writes the built-in defaults into that object, so the
decode field goes from absent to present. -/
theorem c7_options_mutated :
    (sanitizeMut "a" emptyOptions).2.decode = some defaultDecode
    ∧ emptyOptions.decode = none :=
  ⟨rfl, rfl⟩

/-- C8: under the default configuration the percent-encoded traversal
%2e%2e%2fetc%2fpasswd decodes in rule order before the separator-based
steps and sanitizes to etc/passwd. -/
theorem c8_percent_decode_scenario :
    sanitize "%2e%2e%2fetc%2fpasswd" = "etc/passwd" := by
  decide

/-- C9: sanitize terminates on every input: the trailing- and
leading-separator trim loops, run for length-of-string iterations, have
reached a fixed point (one more iteration changes nothing), and the whole
call completes with a value for every string under the default
configuration. -/
theorem c9_trim_loops_terminate (s : String) :
    trimEndStep (trimTrailing s) = trimTrailing s
    ∧ trimStartStep (trimLeading s) = trimLeading s
    ∧ (sanitizeJS (JSVal.str s) JSVal.undef).isOk = true := by
  refine ⟨?_, ?_, rfl⟩
  · exact iterate_reaches_fix trimEndStep trimEndStep_shrinks s.length s le_rfl
  · exact iterate_reaches_fix trimStartStep trimStartStep_shrinks s.length s le_rfl

/-- C10: whenever the pipeline result before the final join step is the
empty string (empty input, separator-only inputs), the structural join of
the empty string against the empty base yields '.', so sanitize returns
the single-character string '.'. -/
theorem c10_empty_pre_join_dot (s : String) (h : preJoin s = "") :
    sanitize s = "." := by
  unfold sanitize sanitizeWith
  unfold preJoin at h
  rw [h]
  decide

/-- C10 witness: the empty-string input has empty pre-join result and
sanitizes to '.'. -/
theorem c10_empty_pre_join_dot_witness :
    preJoin "" = "" ∧ sanitize "" = "." :=
  ⟨by decide, c10_empty_pre_join_dot "" (by decide)⟩

end PathSanitizer
